import Mathlib

/-!
Verification of the workload-operator admission loop (`app.py`).

The development shallowly embeds the operator's core: the descriptor codec
(`_get_method_and_parameters`), the per-event dispatch of the `cli` while-loop
body (fetch, decode, template call, capacity wait, run call, deletion), and
the loop itself (producer-aliveness check, queue consumption, exit code).
External collaborator behaviour (the OpenShift client's `get`, attribute
resolution, method invocation, `can_run_workload`, `delete`) is supplied by an
environment record; each per-event processing step records its observable
actions in a trace.
-/

namespace WorkloadOperator

/-- JSON values, the result type of parsing a parameter blob. -/
inductive Json where
  | null
  | bool (b : Bool)
  | num (n : Int)
  | str (s : String)
  | arr (elems : List Json)
  | obj (fields : List (String × Json))

instance : Inhabited Json := ⟨Json.null⟩

/-- Whitespace skipping for the JSON parser. -/
def skipWs : List Char → List Char
  | c :: cs => if c = ' ' ∨ c = '\t' ∨ c = '\n' ∨ c = '\r' then skipWs cs else c :: cs
  | [] => []

/-- Parse the remainder of a JSON string literal (after the opening quote),
returning the characters and the rest of the input. -/
def parseStringChars : List Char → Option (List Char × List Char)
  | [] => none
  | '"' :: rest => some ([], rest)
  | '\\' :: c :: rest =>
    let esc : Option Char :=
      if c = '"' then some '"'
      else if c = '\\' then some '\\'
      else if c = '/' then some '/'
      else if c = 'n' then some '\n'
      else if c = 't' then some '\t'
      else if c = 'r' then some '\r'
      else none
    match esc with
    | some e => (parseStringChars rest).map (fun p => (e :: p.1, p.2))
    | none => none
  | c :: rest => (parseStringChars rest).map (fun p => (c :: p.1, p.2))

/-- Leading decimal digits of the input. -/
def takeDigits : List Char → List Char × List Char
  | c :: cs =>
    if c.isDigit then
      let p := takeDigits cs
      (c :: p.1, p.2)
    else ([], c :: cs)
  | [] => ([], [])

/-- Numeric value of a digit string. -/
def digitsToNat (ds : List Char) : Nat :=
  ds.foldl (fun acc c => 10 * acc + (c.toNat - '0'.toNat)) 0

/-- Parse a JSON integer (optional minus sign, then digits). -/
def parseNumber (cs : List Char) : Option (Int × List Char) :=
  match cs with
  | '-' :: rest =>
    match takeDigits rest with
    | ([], _) => none
    | (ds, rest2) => some (-(digitsToNat ds : Int), rest2)
  | _ =>
    match takeDigits cs with
    | ([], _) => none
    | (ds, rest2) => some ((digitsToNat ds : Int), rest2)

/-- Parse the items of a JSON array after the opening bracket, given a parser
`pv` for a single value; `fuel` bounds the number of items. -/
def parseElemsAux (pv : List Char → Option (Json × List Char)) :
    Nat → List Char → Option (List Json × List Char)
  | 0, _ => none
  | fuel + 1, cs =>
    match pv cs with
    | none => none
    | some (v, rest) =>
      match skipWs rest with
      | ',' :: r2 => (parseElemsAux pv fuel (skipWs r2)).map (fun p => (v :: p.1, p.2))
      | ']' :: r2 => some ([v], r2)
      | _ => none

/-- Parse the fields of a JSON object after the opening brace, given a parser
`pv` for a single value; `fuel` bounds the number of fields. -/
def parseFieldsAux (pv : List Char → Option (Json × List Char)) :
    Nat → List Char → Option (List (String × Json) × List Char)
  | 0, _ => none
  | fuel + 1, cs =>
    match cs with
    | '"' :: r1 =>
      match parseStringChars r1 with
      | none => none
      | some (key, r2) =>
        match skipWs r2 with
        | ':' :: r3 =>
          match pv (skipWs r3) with
          | none => none
          | some (v, r4) =>
            match skipWs r4 with
            | ',' :: r5 =>
              (parseFieldsAux pv fuel (skipWs r5)).map
                (fun p => ((String.mk key, v) :: p.1, p.2))
            | '\x7d' :: r5 => some ([(String.mk key, v)], r5)
            | _ => none
        | _ => none
    | _ => none

/-- Parse one JSON value; `fuel` bounds the nesting depth and item counts. -/
def parseValue : Nat → List Char → Option (Json × List Char)
  | 0, _ => none
  | fuel + 1, cs =>
    match skipWs cs with
    | 'n' :: 'u' :: 'l' :: 'l' :: rest => some (.null, rest)
    | 't' :: 'r' :: 'u' :: 'e' :: rest => some (.bool true, rest)
    | 'f' :: 'a' :: 'l' :: 's' :: 'e' :: rest => some (.bool false, rest)
    | '"' :: rest => (parseStringChars rest).map (fun p => (.str (String.mk p.1), p.2))
    | '[' :: rest =>
      match skipWs rest with
      | ']' :: r2 => some (.arr [], r2)
      | cs2 => (parseElemsAux (parseValue fuel) fuel cs2).map (fun p => (.arr p.1, p.2))
    | '\x7b' :: rest =>
      match skipWs rest with
      | '\x7d' :: r2 => some (.obj [], r2)
      | cs2 => (parseFieldsAux (parseValue fuel) fuel cs2).map (fun p => (.obj p.1, p.2))
    | c :: rest =>
      if c = '-' ∨ c.isDigit then
        (parseNumber (c :: rest)).map (fun p => (.num p.1, p.2))
      else none
    | [] => none

/-- Models Python's `json.loads` (the external standard library call used by
`_get_method_and_parameters`) on the JSON subset relevant here: null, booleans,
integers, strings, arrays and objects. Returns `none` where `json.loads`
raises. -/
def json_loads (s : String) : Option Json :=
  let cs := s.data
  match parseValue (cs.length + 1) cs with
  | some (v, rest) => if (skipWs rest).isEmpty then some v else none
  | none => none

/-- The `data` section of a workload ConfigMap as read by the operator.
A field the ConfigMap does not carry is the empty string: Python's attribute
access yields `None` for a missing key and both `None` and `""` fail the
code's `if not x` checks identically, and neither reaches `json.loads`. -/
structure ConfigMapData where
  run_method_name : String
  run_method_parameters : String
  template_method_name : String
  template_method_parameters : String

/-- The distinct classified causes with which decoding rejects a descriptor,
one per distinct log message of `_get_method_and_parameters` (the Python code
raises a bare `ValueError` in each case; the classification is the logged
cause). -/
inductive DecodeErr where
  | missingMethod
  | missingParameters
  | malformedParameters
  | missingTemplateMethod
  | missingTemplateParameters
  | malformedTemplateParameters
deriving DecidableEq

/-- Translation of `_get_method_and_parameters` (app.py lines 55-117): fetch
and validate the run method name, run parameters (non-empty, JSON-parsed),
template method name and template parameters (non-empty, JSON-parsed), in
that order, failing with the first violated check's classified cause. -/
def _get_method_and_parameters (configmap : ConfigMapData) :
    Except DecodeErr (String × Json × String × Json) :=
  let method_name := configmap.run_method_name
  if method_name = "" then .error .missingMethod
  else
    let parameters := configmap.run_method_parameters
    if parameters = "" then .error .missingParameters
    else
      match json_loads parameters with
      | none => .error .malformedParameters
      | some params =>
        let template_method_name := configmap.template_method_name
        if template_method_name = "" then .error .missingTemplateMethod
        else
          let template_method_parameters := configmap.template_method_parameters
          if template_method_parameters = "" then .error .missingTemplateParameters
          else
            match json_loads template_method_parameters with
            | none => .error .malformedTemplateParameters
            | some template_params =>
              .ok (method_name, params, template_method_name, template_params)

/-- The fields of a JSON object, when the value is one; `none` otherwise.
Models Python's `**x` keyword unpacking requirement: unpacking a non-mapping
raises `TypeError`. -/
def Json.objFields? : Json → Option (List (String × Json))
  | .obj fields => some fields
  | _ => none

/-- Error classification of a collaborator invocation: `ConflictError`
(the resource already exists) against any other exception. -/
inductive InvokeErr where
  | conflict
  | generic
deriving DecidableEq

/-- The candidate unit produced by the template method. Per the collaborator
contract it carries a derivable display name (`template["metadata"]["name"]`,
read by the success log at app.py line 191); `payload` stands for the rest of
the opaque template content. -/
structure Template where
  metadata_name : String
  payload : Nat
deriving DecidableEq

/-- The collaborator environment of one loop iteration: the outcome of the
ConfigMap re-fetch, attribute resolution on the OpenShift client, the two
method invocations, the capacity oracle (per poll index) and deletion.
`Except Unit _` stands for a call that may raise. -/
structure Env where
  get : String → Except Unit ConfigMapData
  hasAttr : String → Bool
  invoke_template : String → List (String × Json) → Except InvokeErr Template
  can_run_workload : Template → String → Nat → Bool
  invoke_run : String → List (String × Json) → Template → Except InvokeErr Nat
  delete : String → Except Unit Unit

/-- Observable actions of one loop iteration, in program order: collaborator
calls and the log statements that classify failures. `templateReturned` and
`runReturned` record an invocation's outcome at the moment it returns or
raises. -/
inductive Action where
  | fetchCall (name : String)
  | logFetchError
  | logDecodeError (e : DecodeErr)
  | templateCall (method : String) (kwargs : List (String × Json))
  | templateReturned (r : Except InvokeErr Template)
  | pollCall (result : Bool)
  | runCall (method : String) (kwargs : List (String × Json)) (tmpl : Template)
  | runReturned (r : Except InvokeErr Nat)
  | logConflictWarning
  | logRunError
  | logSuccess (templateName : String)
  | deleteCall (name : String)
  | logDeleteError

/-- The capacity-wait loop (app.py lines 179-180): poll `can` at successive
indices until it returns true; `fuel` truncates the unbounded Python loop.
Returns whether admission was observed and the trace of polls made. -/
def capacity_wait (can : Nat → Bool) : Nat → Nat → Bool × List Action
  | 0, _ => (false, [])
  | fuel + 1, k =>
    if can k then (true, [.pollCall true])
    else
      let p := capacity_wait can fuel (k + 1)
      (p.1, .pollCall false :: p.2)

/-- Keyword arguments of the run call `method(**method_parameters,
template=template)` (app.py line 183): the parameters must unpack as a mapping
and must not themselves bind `template` (Python raises `TypeError` for a
duplicate keyword); the template itself is passed alongside, recorded
separately in `Action.runCall`. -/
def runKwargs? (p : Json) : Option (List (String × Json)) :=
  match p with
  | .obj fields => if fields.any (fun kv => kv.1 = "template") then none else some fields
  | _ => none

/-- One iteration of the `cli` while-loop body (app.py lines 157-209) for the
queued ConfigMap name: re-fetch, decode, resolve and invoke the template
method, wait for capacity, resolve and invoke the run method, delete on
success; every failure path logs and falls through to the next event. -/
def process_event (env : Env) (fuel : Nat) (ns : String) (configmap_name : String) :
    List Action :=
  Action.fetchCall configmap_name ::
  match env.get configmap_name with
  | .error _ => [.logFetchError]
  | .ok configmap =>
    match _get_method_and_parameters configmap with
    | .error e => [.logDecodeError e]
    | .ok (method_name, method_parameters, template_method_name, template_method_parameters) =>
      if env.hasAttr template_method_name = false then [.logRunError]
      else
        match template_method_parameters.objFields? with
        | none => [.logRunError]
        | some tkwargs =>
          .templateCall template_method_name tkwargs ::
          match env.invoke_template template_method_name tkwargs with
          | .error .conflict => [.templateReturned (.error .conflict), .logConflictWarning]
          | .error .generic => [.templateReturned (.error .generic), .logRunError]
          | .ok template =>
            .templateReturned (.ok template) ::
            let w := capacity_wait (env.can_run_workload template ns) fuel 0
            w.2 ++
            if w.1 = false then []
            else if env.hasAttr method_name = false then [.logRunError]
            else
              match runKwargs? method_parameters with
              | none => [.logRunError]
              | some kwargs =>
                .runCall method_name kwargs template ::
                match env.invoke_run method_name kwargs template with
                | .error .conflict => [.runReturned (.error .conflict), .logConflictWarning]
                | .error .generic => [.runReturned (.error .generic), .logRunError]
                | .ok r =>
                  .runReturned (.ok r) ::
                  .logSuccess template.metadata_name ::
                  .deleteCall configmap_name ::
                  match env.delete configmap_name with
                  | .error _ => [.logDeleteError]
                  | .ok _ => []

/-- Outcome of running the consumer loop on a schedule of queued events:
the concatenated action trace, the events still queued when it stopped, and
the process exit status (`some 1` after `sys.exit(1)`, `none` while the loop
is still running or blocked in `queue.get`). -/
structure LoopResult where
  trace : List Action
  remaining : List (String × Env)
  exitCode : Option Nat

/-- The `cli` consumer loop (app.py lines 156-214): while the producer's
aliveness check passes, dequeue a name and process it; when a check observes
the producer dead, stop and `sys.exit(1)`. `alive k` is what
`producer.is_alive()` returns at the k-th check; each queued event carries the
collaborator environment of its iteration. An empty queue with a live producer
blocks in `queue.get` (result `none`). -/
def cli_loop (fuel : Nat) (ns : String) :
    (Nat → Bool) → List (String × Env) → LoopResult
  | alive, events =>
    if alive 0 = false then ⟨[], events, some 1⟩
    else
      match events with
      | [] => ⟨[], [], none⟩
      | (name, env) :: rest =>
        let t := process_event env fuel ns name
        let res := cli_loop fuel ns (fun k => alive (k + 1)) rest
        ⟨t ++ res.trace, res.remaining, res.exitCode⟩

/-- Number of deletion calls in a trace. -/
def countDelete (t : List Action) : Nat :=
  t.countP fun a => match a with | .deleteCall _ => true | _ => false

/-- Number of run-method invocations in a trace. -/
def countRun (t : List Action) : Nat :=
  t.countP fun a => match a with | .runCall _ _ _ => true | _ => false

/-- Number of template-method invocations in a trace. -/
def countTemplate (t : List Action) : Nat :=
  t.countP fun a => match a with | .templateCall _ _ => true | _ => false

/-- Number of capacity polls in a trace. -/
def countPoll (t : List Action) : Nat :=
  t.countP fun a => match a with | .pollCall _ => true | _ => false

/-- Whether an action records the run invocation returning without error. -/
def Action.isRunOk : Action → Bool
  | .runReturned (.ok _) => true
  | _ => false

/-- The decode rules as the spec words them, each an order-independent
predicate of the descriptor, with the two parse rules amended to "parses as
JSON data": the code's `json.loads` accepts any JSON value, not only
mappings. -/
def ruleViolated (d : ConfigMapData) : DecodeErr → Bool
  | .missingMethod => d.run_method_name = ""
  | .missingParameters => d.run_method_parameters = ""
  | .malformedParameters => (json_loads d.run_method_parameters).isNone
  | .missingTemplateMethod => d.template_method_name = ""
  | .missingTemplateParameters => d.template_method_parameters = ""
  | .malformedTemplateParameters => (json_loads d.template_method_parameters).isNone

/-- The fixed validation order of the spec's rules 1-5 (rule 5 reporting two
causes). -/
def ruleOrder : List DecodeErr :=
  [.missingMethod, .missingParameters, .malformedParameters,
   .missingTemplateMethod, .missingTemplateParameters, .malformedTemplateParameters]

/-- The first rule of the fixed order the descriptor violates, if any. -/
def firstViolatedRule (d : ConfigMapData) : Option DecodeErr :=
  (ruleOrder.filter (ruleViolated d)).head?

/-- A concrete two-phase descriptor (the spec's scenario-B shape). -/
def cmTwoPhase : ConfigMapData :=
  ⟨"scheduleJob", "\x7b\"cpu\":2\x7d", "get_template", "\x7b\x7d"⟩

/-- A concrete single-phase descriptor (the spec's scenario-A shape: valid run
fields, no template fields). -/
def cmSinglePhase : ConfigMapData := ⟨"scheduleJob", "\x7b\"cpu\":2\x7d", "", ""⟩

/-- A concrete candidate unit. -/
def tmplA : Template := ⟨"job-1", 0⟩

/-- A cooperative collaborator: fetching "cm" yields `cmTwoPhase`, every
method name resolves, the template call yields `tmplA`, capacity is granted at
the second poll, the run call succeeds, deletion succeeds. -/
def envA : Env :=
  { get := fun n => if n = "cm" then .ok cmTwoPhase else .error ()
    hasAttr := fun _ => true
    invoke_template := fun _ _ => .ok tmplA
    can_run_workload := fun _ _ k => decide (1 ≤ k)
    invoke_run := fun _ _ _ => .ok 7
    delete := fun _ => .ok () }

/-- As `envA`, but the run invocation raises `ConflictError`. -/
def envConflict : Env := { envA with invoke_run := fun _ _ _ => .error .conflict }

/-- As `envA`, but deletion fails. -/
def envDeleteFail : Env := { envA with delete := fun _ => .error () }

/-- As `envA`, but no method name resolves on the client. -/
def envNoAttr : Env := { envA with hasAttr := fun _ => false }

/-- As `envA`, but the re-fetch fails. -/
def envFetchFail : Env := { envA with get := fun _ => .error () }

/-- As `envA`, but fetching yields the single-phase descriptor. -/
def envSingle : Env := { envA with get := fun _ => .ok cmSinglePhase }

/-- Every action the capacity wait emits is a poll. -/
lemma mem_capacity_wait {a : Action} {can : Nat → Bool} {fuel k : Nat}
    (h : a ∈ (capacity_wait can fuel k).2) : ∃ b, a = Action.pollCall b := by
  induction fuel generalizing k with
  | zero => simp [capacity_wait] at h
  | succ fuel ih =>
    rw [capacity_wait] at h
    by_cases hc : can k
    · simp [hc] at h
      exact ⟨true, h⟩
    · simp [hc] at h
      rcases h with h | h
      · exact ⟨false, h⟩
      · exact ih h

/-- A predicate false on polls counts nothing in a capacity-wait trace. -/
lemma countP_capacity_wait (p : Action → Bool) (hp : ∀ b, p (.pollCall b) = false)
    (can : Nat → Bool) (fuel k : Nat) :
    List.countP p (capacity_wait can fuel k).2 = 0 := by
  rw [List.countP_eq_zero]
  intro a ha
  obtain ⟨b, rfl⟩ := mem_capacity_wait ha
  simp [hp b]

@[simp] lemma countDelete_capacity_wait (can : Nat → Bool) (fuel k : Nat) :
    countDelete (capacity_wait can fuel k).2 = 0 :=
  countP_capacity_wait _ (fun _ => rfl) can fuel k

@[simp] lemma countRun_capacity_wait (can : Nat → Bool) (fuel k : Nat) :
    countRun (capacity_wait can fuel k).2 = 0 :=
  countP_capacity_wait _ (fun _ => rfl) can fuel k

@[simp] lemma countTemplate_capacity_wait (can : Nat → Bool) (fuel k : Nat) :
    countTemplate (capacity_wait can fuel k).2 = 0 :=
  countP_capacity_wait _ (fun _ => rfl) can fuel k

@[simp] lemma any_isRunOk_capacity_wait (can : Nat → Bool) (fuel k : Nat) :
    (capacity_wait can fuel k).2.any Action.isRunOk = false := by
  rw [List.any_eq_false]
  intro a ha
  obtain ⟨b, rfl⟩ := mem_capacity_wait ha
  simp [Action.isRunOk]

/-- Unfolding of the consumer loop at a live check: the queued event is
processed whatever its outcome, and the loop goes on with the rest. -/
lemma cli_loop_cons {alive : Nat → Bool} (h : alive 0 = true)
    (fuel : Nat) (ns name : String) (env : Env) (rest : List (String × Env)) :
    cli_loop fuel ns alive ((name, env) :: rest) =
      ⟨process_event env fuel ns name ++
         (cli_loop fuel ns (fun k => alive (k + 1)) rest).trace,
       (cli_loop fuel ns (fun k => alive (k + 1)) rest).remaining,
       (cli_loop fuel ns (fun k => alive (k + 1)) rest).exitCode⟩ := by
  rw [cli_loop]
  simp [h]

/-- C1: for every received descriptor event, a deletion call is made if and
only if the run-method invocation returned without error, and then exactly one
deletion call is made; on any failure (fetch, decode, template call, capacity
wait, run call, or ConflictError) zero deletion calls are made. -/
theorem delete_called_iff_run_succeeded (env : Env) (fuel : Nat) (ns name : String) :
    countDelete (process_event env fuel ns name) =
      if (process_event env fuel ns name).any Action.isRunOk then 1 else 0 := by
  simp only [process_event]
  cases hg : env.get name with
  | error u => simp [hg, countDelete, Action.isRunOk]
  | ok cm =>
    cases hd : _get_method_and_parameters cm with
    | error e => simp [hg, hd, countDelete, Action.isRunOk]
    | ok q =>
      obtain ⟨m, p, tm, tp⟩ := q
      cases hA : env.hasAttr tm with
      | false => simp [hg, hd, hA, countDelete, Action.isRunOk]
      | true =>
        cases htp : tp.objFields? with
        | none => simp [hg, hd, hA, htp, countDelete, Action.isRunOk]
        | some tkw =>
          cases hti : env.invoke_template tm tkw with
          | error e =>
            cases e <;> simp [hg, hd, hA, htp, hti, countDelete, Action.isRunOk]
          | ok tmpl =>
            cases hw : (capacity_wait (env.can_run_workload tmpl ns) fuel 0).1 with
            | false =>
              simp [hg, hd, hA, htp, hti, hw, countDelete, Action.isRunOk,
                List.countP_append, List.any_append] <;>
                      first
                        | rfl
                        | (intro a ha; obtain ⟨b, rfl⟩ := mem_capacity_wait ha; rfl)
            | true =>
              cases hm : env.hasAttr m with
              | false =>
                simp [hg, hd, hA, htp, hti, hw, hm, countDelete, Action.isRunOk,
                  List.countP_append, List.any_append] <;>
                      first
                        | rfl
                        | (intro a ha; obtain ⟨b, rfl⟩ := mem_capacity_wait ha; rfl)
              | true =>
                cases hrk : runKwargs? p with
                | none =>
                  simp [hg, hd, hA, htp, hti, hw, hm, hrk, countDelete, Action.isRunOk,
                    List.countP_append, List.any_append] <;>
                      first
                        | rfl
                        | (intro a ha; obtain ⟨b, rfl⟩ := mem_capacity_wait ha; rfl)
                | some kw =>
                  cases hri : env.invoke_run m kw tmpl with
                  | error e =>
                    cases e <;>
                      simp [hg, hd, hA, htp, hti, hw, hm, hrk, hri, countDelete,
                        Action.isRunOk, List.countP_append, List.any_append] <;>
                      first
                        | rfl
                        | (intro a ha; obtain ⟨b, rfl⟩ := mem_capacity_wait ha; rfl)
                  | ok r =>
                    cases hdel : env.delete name <;>
                      simp [hg, hd, hA, htp, hti, hw, hm, hrk, hri, hdel, countDelete,
                        Action.isRunOk, List.countP_append, List.any_append] <;>
                      first
                        | rfl
                        | (intro a ha; obtain ⟨b, rfl⟩ := mem_capacity_wait ha; rfl)


/-- With capacity denied below poll `N` and granted at poll `N`, and enough
fuel, the wait admits after exactly `N` false polls and one true poll. -/
lemma capacity_wait_eq_of_first_true {can : Nat → Bool} {N : Nat}
    (hfalse : ∀ j, j < N → can j = false) (htrue : can N = true) :
    ∀ fuel k, k ≤ N → N + 1 - k ≤ fuel →
      capacity_wait can fuel k =
        (true, List.replicate (N - k) (.pollCall false) ++ [.pollCall true]) := by
  intro fuel
  induction fuel with
  | zero => intro k hk hf; omega
  | succ fuel ih =>
    intro k hk hf
    rw [capacity_wait]
    by_cases hck : k = N
    · subst hck
      simp [htrue]
    · have hklt : k < N := lt_of_le_of_ne hk hck
      have hrec := ih (k + 1) (by omega) (by omega)
      simp only [hfalse k hklt, Bool.false_eq_true, if_false, hrec]
      have hNk : N - k = (N - (k + 1)) + 1 := by omega
      rw [hNk, List.replicate_succ]
      simp

@[simp] lemma countTemplate_replicate_poll (n : Nat) (b : Bool) :
    countTemplate (List.replicate n (.pollCall b)) = 0 := by
  simp only [countTemplate]
  rw [List.countP_eq_zero]
  intro a ha
  have h := List.eq_of_mem_replicate ha
  subst h
  simp

@[simp] lemma countRun_replicate_poll (n : Nat) (b : Bool) :
    countRun (List.replicate n (.pollCall b)) = 0 := by
  simp only [countRun]
  rw [List.countP_eq_zero]
  intro a ha
  have h := List.eq_of_mem_replicate ha
  subst h
  simp

/-- C2: for a two-phase descriptor that decodes successfully (and whose
template step succeeds), the template method is invoked exactly once, before
any CanAdmit poll; with CanAdmit false for N polls then true, the run method
is invoked only after the N+1st poll; the run call receives the decoded run
parameters plus the produced candidate unit as its `template` argument. -/
theorem two_phase_template_then_gate_then_run
    (env : Env) (fuel N : Nat) (ns name : String) (cm : ConfigMapData)
    (m : String) (p : Json) (tm : String) (tp : Json)
    (tkw pkw : List (String × Json)) (tmpl : Template)
    (hget : env.get name = .ok cm)
    (hdec : _get_method_and_parameters cm = .ok (m, p, tm, tp))
    (hA : env.hasAttr tm = true)
    (htp : tp.objFields? = some tkw)
    (hti : env.invoke_template tm tkw = .ok tmpl)
    (hfalse : ∀ j, j < N → env.can_run_workload tmpl ns j = false)
    (htrue : env.can_run_workload tmpl ns N = true)
    (hfuel : N + 1 ≤ fuel)
    (hm : env.hasAttr m = true)
    (hrk : runKwargs? p = some pkw) :
    (∃ rest, process_event env fuel ns name =
      [.fetchCall name, .templateCall tm tkw, .templateReturned (.ok tmpl)] ++
      List.replicate N (.pollCall false) ++ [.pollCall true] ++
      [.runCall m pkw tmpl] ++ rest) ∧
    countTemplate (process_event env fuel ns name) = 1 ∧
    countRun (process_event env fuel ns name) = 1 := by
  have hwait := capacity_wait_eq_of_first_true hfalse htrue fuel 0 (Nat.zero_le N) (by omega)
  have hstep : process_event env fuel ns name =
      [.fetchCall name, .templateCall tm tkw, .templateReturned (.ok tmpl)] ++
      List.replicate N (.pollCall false) ++ [.pollCall true] ++
      [.runCall m pkw tmpl] ++
      (match env.invoke_run m pkw tmpl with
       | .error .conflict => [.runReturned (.error .conflict), .logConflictWarning]
       | .error .generic => [.runReturned (.error .generic), .logRunError]
       | .ok r => .runReturned (.ok r) :: .logSuccess tmpl.metadata_name ::
           .deleteCall name ::
             (match env.delete name with
              | .error _ => [.logDeleteError]
              | .ok _ => [])) := by
    simp [process_event, hget, hdec, hA, htp, hti, hwait, hm, hrk]
  refine ⟨⟨_, hstep⟩, ?_, ?_⟩
  · rw [hstep]
    cases hri : env.invoke_run m pkw tmpl with
    | error e =>
      cases e <;> simp [countTemplate, List.countP_cons, List.countP_append]
    | ok r =>
      cases hdel : env.delete name <;>
        simp [countTemplate, List.countP_cons, List.countP_append]
  · rw [hstep]
    cases hri : env.invoke_run m pkw tmpl with
    | error e =>
      cases e <;> simp [countRun, List.countP_cons, List.countP_append]
    | ok r =>
      cases hdel : env.delete name <;>
        simp [countRun, List.countP_cons, List.countP_append]


theorem two_phase_template_then_gate_then_run_witness :
    (∃ rest, process_event envA 5 "ns" "cm" =
      [.fetchCall "cm", .templateCall "get_template" [], .templateReturned (.ok tmplA)] ++
      List.replicate 1 (.pollCall false) ++ [.pollCall true] ++
      [.runCall "scheduleJob" [("cpu", .num 2)] tmplA] ++ rest) ∧
    countTemplate (process_event envA 5 "ns" "cm") = 1 ∧
    countRun (process_event envA 5 "ns" "cm") = 1 :=
  two_phase_template_then_gate_then_run envA 5 1 "ns" "cm" cmTwoPhase
    "scheduleJob" (.obj [("cpu", .num 2)]) "get_template" (.obj []) [] [("cpu", .num 2)]
    tmplA rfl rfl rfl rfl rfl
    (fun j hj => by
      have hj0 : j = 0 := by omega
      subst hj0
      rfl)
    rfl (by omega) rfl rfl


/-- C3 (amended): decoding fails at the first violated rule of the fixed
order, reporting that rule's distinct classified cause, and on failure
produces no partial result; the two parse rules demand parsing as JSON data
(any JSON value), not as a structured mapping. -/
theorem decode_reports_first_violated_rule (d : ConfigMapData) :
    _get_method_and_parameters d =
      match firstViolatedRule d with
      | some e => .error e
      | none => .ok (d.run_method_name, (json_loads d.run_method_parameters).getD .null,
                     d.template_method_name,
                     (json_loads d.template_method_parameters).getD .null) := by
  by_cases h1 : d.run_method_name = ""
  · simp [_get_method_and_parameters, firstViolatedRule, ruleOrder, ruleViolated, h1]
  · by_cases h2 : d.run_method_parameters = ""
    · simp [_get_method_and_parameters, firstViolatedRule, ruleOrder, ruleViolated, h1, h2]
    · cases hp : json_loads d.run_method_parameters with
      | none =>
        simp [_get_method_and_parameters, firstViolatedRule, ruleOrder, ruleViolated,
          h1, h2, hp]
      | some v =>
        by_cases h4 : d.template_method_name = ""
        · simp [_get_method_and_parameters, firstViolatedRule, ruleOrder, ruleViolated,
            h1, h2, hp, h4]
        · by_cases h5 : d.template_method_parameters = ""
          · simp [_get_method_and_parameters, firstViolatedRule, ruleOrder, ruleViolated,
              h1, h2, hp, h4, h5]
          · cases hq : json_loads d.template_method_parameters with
            | none =>
              simp [_get_method_and_parameters, firstViolatedRule, ruleOrder, ruleViolated,
                h1, h2, hp, h4, h5, hq]
            | some w =>
              simp [_get_method_and_parameters, firstViolatedRule, ruleOrder, ruleViolated,
                h1, h2, hp, h4, h5, hq]

/-- C3 counterexample: a descriptor whose parameter fields parse as the JSON
number 5 (not a structured mapping, so `**`-unpacking them would fail) decodes
successfully, against the claim that decoding validates "run parameters parse
as a structured mapping" and fails at the first violated rule. -/
theorem decode_accepts_nonmapping_parameters :
    _get_method_and_parameters ⟨"m", "5", "t", "6"⟩ = .ok ("m", .num 5, "t", .num 6) ∧
    (Json.num 5).objFields? = none ∧ (Json.num 6).objFields? = none :=
  ⟨rfl, rfl, rfl⟩



/-- C4 counterexample: the spec's scenario-A single-phase descriptor (valid
run method name and run parameters, no template fields), in a fully
cooperative environment, is rejected at decode with the missing-template-
method cause: the run method is never invoked, CanAdmit is never polled, and
no deletion call is made — against the claim that processing succeeds. -/
theorem single_phase_descriptor_rejected :
    process_event envSingle 5 "ns" "cm" =
      [.fetchCall "cm", .logDecodeError .missingTemplateMethod] ∧
    countRun (process_event envSingle 5 "ns" "cm") = 0 ∧
    countPoll (process_event envSingle 5 "ns" "cm") = 0 ∧
    countDelete (process_event envSingle 5 "ns" "cm") = 0 :=
  ⟨rfl, rfl, rfl, rfl⟩

/-- C4 (amended): a single-phase descriptor carrying a valid run method name
and parseable run parameters but no template fields fails decoding with the
missing-template-method cause; nothing is invoked and the descriptor is left
in place. -/
theorem single_phase_fails_missing_template (env : Env) (fuel : Nat) (ns name : String)
    (cm : ConfigMapData)
    (hget : env.get name = .ok cm)
    (hm : cm.run_method_name ≠ "")
    (hp : cm.run_method_parameters ≠ "")
    (hjson : (json_loads cm.run_method_parameters).isSome)
    (htm : cm.template_method_name = "") :
    process_event env fuel ns name =
      [.fetchCall name, .logDecodeError .missingTemplateMethod] := by
  have hdec : _get_method_and_parameters cm = .error .missingTemplateMethod := by
    simp only [_get_method_and_parameters]
    rw [if_neg hm, if_neg hp]
    cases hj : json_loads cm.run_method_parameters with
    | none => rw [hj] at hjson; simp at hjson
    | some v => simp [htm]
  simp [process_event, hget, hdec]

theorem single_phase_fails_missing_template_witness :
    process_event envSingle 5 "ns" "cm" =
      [.fetchCall "cm", .logDecodeError .missingTemplateMethod] :=
  single_phase_fails_missing_template envSingle 5 "ns" "cm" cmSinglePhase rfl
    (by decide) (by decide) rfl rfl



/-- C10: when the re-fetch of the descriptor by name fails, no decode is
attempted, no template or run operation is invoked, no deletion call is made,
and the loop proceeds to the next event. -/
theorem fetch_failure_skips_event (env : Env) (fuel : Nat) (ns name : String)
    (hget : env.get name = .error ()) :
    process_event env fuel ns name = [.fetchCall name, .logFetchError] ∧
    countTemplate (process_event env fuel ns name) = 0 ∧
    countRun (process_event env fuel ns name) = 0 ∧
    countDelete (process_event env fuel ns name) = 0 ∧
    (∀ alive rest, alive 0 = true →
      cli_loop fuel ns alive ((name, env) :: rest) =
        ⟨process_event env fuel ns name ++
           (cli_loop fuel ns (fun k => alive (k + 1)) rest).trace,
         (cli_loop fuel ns (fun k => alive (k + 1)) rest).remaining,
         (cli_loop fuel ns (fun k => alive (k + 1)) rest).exitCode⟩) := by
  have ht : process_event env fuel ns name = [.fetchCall name, .logFetchError] := by
    simp [process_event, hget]
  exact ⟨ht, by rw [ht]; rfl, by rw [ht]; rfl, by rw [ht]; rfl,
    fun alive rest h => cli_loop_cons h fuel ns name env rest⟩

theorem fetch_failure_skips_event_witness :
    process_event envFetchFail 5 "ns" "cm" = [.fetchCall "cm", .logFetchError] ∧
    countTemplate (process_event envFetchFail 5 "ns" "cm") = 0 ∧
    countRun (process_event envFetchFail 5 "ns" "cm") = 0 ∧
    countDelete (process_event envFetchFail 5 "ns" "cm") = 0 ∧
    (∀ alive rest, alive 0 = true →
      cli_loop 5 "ns" alive (("cm", envFetchFail) :: rest) =
        ⟨process_event envFetchFail 5 "ns" "cm" ++
           (cli_loop 5 "ns" (fun k => alive (k + 1)) rest).trace,
         (cli_loop 5 "ns" (fun k => alive (k + 1)) rest).remaining,
         (cli_loop 5 "ns" (fun k => alive (k + 1)) rest).exitCode⟩) :=
  fetch_failure_skips_event envFetchFail 5 "ns" "cm" rfl

/-- C6: a failure while processing one descriptor is never fatal to the
admission loop: whatever the event's trace (including a deletion failure after
a successful run), the loop's result continues with the remaining events'
processing. -/
theorem loop_processes_next_event_after_any_outcome (fuel : Nat) (ns name : String)
    (env : Env) (rest : List (String × Env)) (alive : Nat → Bool)
    (halive : alive 0 = true) :
    cli_loop fuel ns alive ((name, env) :: rest) =
      ⟨process_event env fuel ns name ++
         (cli_loop fuel ns (fun k => alive (k + 1)) rest).trace,
       (cli_loop fuel ns (fun k => alive (k + 1)) rest).remaining,
       (cli_loop fuel ns (fun k => alive (k + 1)) rest).exitCode⟩ :=
  cli_loop_cons halive fuel ns name env rest

theorem loop_processes_next_event_after_any_outcome_witness :
    cli_loop 5 "ns" (fun _ => true) [("cm", envDeleteFail), ("cm2", envFetchFail)] =
      ⟨process_event envDeleteFail 5 "ns" "cm" ++
         (cli_loop 5 "ns" (fun _ => true) [("cm2", envFetchFail)]).trace,
       (cli_loop 5 "ns" (fun _ => true) [("cm2", envFetchFail)]).remaining,
       (cli_loop 5 "ns" (fun _ => true) [("cm2", envFetchFail)]).exitCode⟩ :=
  loop_processes_next_event_after_any_outcome 5 "ns" "cm" envDeleteFail
    [("cm2", envFetchFail)] (fun _ => true) rfl

/-- C9: whenever an aliveness check observes the event producer dead, the
consumer stops its loop and exits with the non-zero status 1, leaving any
still-queued events unconsumed. -/
theorem producer_death_stops_loop (fuel : Nat) (ns : String)
    (events : List (String × Env)) (alive : Nat → Bool) (k : Nat)
    (hlive : ∀ j, j < k → alive j = true)
    (hdead : alive k = false)
    (hk : k ≤ events.length) :
    (cli_loop fuel ns alive events).exitCode = some 1 ∧
    (cli_loop fuel ns alive events).remaining = List.drop k events := by
  induction k generalizing alive events with
  | zero =>
    rw [cli_loop.eq_def]
    simp [hdead]
  | succ k ih =>
    have h0 : alive 0 = true := hlive 0 (Nat.succ_pos k)
    cases events with
    | nil => simp at hk
    | cons e rest =>
      obtain ⟨name, env⟩ := e
      rw [cli_loop_cons h0]
      have hrec := ih rest (fun j => alive (j + 1))
        (fun j hj => hlive (j + 1) (by omega)) hdead
        (by simp only [List.length_cons] at hk; omega)
      simp [hrec.1, hrec.2]

theorem producer_death_stops_loop_witness :
    (cli_loop 5 "ns" (fun k => decide (k < 1)) [("cm", envA), ("cm2", envA)]).exitCode =
      some 1 ∧
    (cli_loop 5 "ns" (fun k => decide (k < 1)) [("cm", envA), ("cm2", envA)]).remaining =
      List.drop 1 [("cm", envA), ("cm2", envA)] :=
  producer_death_stops_loop 5 "ns" [("cm", envA), ("cm2", envA)] (fun k => decide (k < 1)) 1
    (fun j hj => by
      have hj0 : j = 0 := by omega
      subst hj0
      rfl)
    rfl (by simp)



@[simp] lemma templateReturned_not_mem_capacity_wait (r : Except InvokeErr Template)
    (can : Nat → Bool) (fuel k : Nat) :
    Action.templateReturned r ∉ (capacity_wait can fuel k).2 := by
  intro h
  obtain ⟨b, hb⟩ := mem_capacity_wait h
  simp at hb

@[simp] lemma runReturned_not_mem_capacity_wait (r : Except InvokeErr Nat)
    (can : Nat → Bool) (fuel k : Nat) :
    Action.runReturned r ∉ (capacity_wait can fuel k).2 := by
  intro h
  obtain ⟨b, hb⟩ := mem_capacity_wait h
  simp at hb

/-- C7: when a decoded descriptor's template or run method name does not
resolve to an operation of the collaborator, the resolution failure is logged
(the generic dispatch-failure log), no deletion call is made, and the trace
ends there. -/
theorem unknown_method_resolution_logged (env : Env) (fuel : Nat) (ns name : String)
    (cm : ConfigMapData) (m : String) (p : Json) (tm : String) (tp : Json)
    (hget : env.get name = .ok cm)
    (hdec : _get_method_and_parameters cm = .ok (m, p, tm, tp)) :
    (env.hasAttr tm = false →
      process_event env fuel ns name = [.fetchCall name, .logRunError]) ∧
    (∀ tkw tmpl, env.hasAttr tm = true → tp.objFields? = some tkw →
      env.invoke_template tm tkw = .ok tmpl →
      (capacity_wait (env.can_run_workload tmpl ns) fuel 0).1 = true →
      env.hasAttr m = false →
      process_event env fuel ns name =
        [.fetchCall name, .templateCall tm tkw, .templateReturned (.ok tmpl)] ++
        (capacity_wait (env.can_run_workload tmpl ns) fuel 0).2 ++ [.logRunError] ∧
      countDelete (process_event env fuel ns name) = 0) := by
  constructor
  · intro hA
    simp [process_event, hget, hdec, hA]
  · intro tkw tmpl hA htp hti hw hm
    have ht : process_event env fuel ns name =
        [.fetchCall name, .templateCall tm tkw, .templateReturned (.ok tmpl)] ++
        (capacity_wait (env.can_run_workload tmpl ns) fuel 0).2 ++ [.logRunError] := by
      simp [process_event, hget, hdec, hA, htp, hti, hw, hm]
    refine ⟨ht, ?_⟩
    rw [ht]
    simp only [countDelete, List.countP_append, List.countP_cons]
    rw [countP_capacity_wait
      (fun a => match a with | Action.deleteCall _ => true | _ => false)
      (fun b => rfl)]
    rfl

theorem unknown_method_resolution_logged_witness :
    (envNoAttr.hasAttr "get_template" = false →
      process_event envNoAttr 5 "ns" "cm" = [.fetchCall "cm", .logRunError]) ∧
    (∀ tkw tmpl, envNoAttr.hasAttr "get_template" = true →
      (Json.obj []).objFields? = some tkw →
      envNoAttr.invoke_template "get_template" tkw = .ok tmpl →
      (capacity_wait (envNoAttr.can_run_workload tmpl "ns") 5 0).1 = true →
      envNoAttr.hasAttr "scheduleJob" = false →
      process_event envNoAttr 5 "ns" "cm" =
        [.fetchCall "cm", .templateCall "get_template" tkw, .templateReturned (.ok tmpl)] ++
        (capacity_wait (envNoAttr.can_run_workload tmpl "ns") 5 0).2 ++ [.logRunError] ∧
      countDelete (process_event envNoAttr 5 "ns" "cm") = 0) :=
  unknown_method_resolution_logged envNoAttr 5 "ns" "cm" cmTwoPhase
    "scheduleJob" (.obj [("cpu", .num 2)]) "get_template" (.obj []) rfl rfl



/-- C5: when the template or run invocation raises ConflictError, the
warning-level conflict log is emitted, the error is swallowed, no deletion
call is made, and the loop proceeds to the next event. -/
theorem conflict_warned_swallowed_no_delete (env : Env) (fuel : Nat) (ns name : String)
    (hconf : Action.templateReturned (.error .conflict) ∈ process_event env fuel ns name ∨
             Action.runReturned (.error .conflict) ∈ process_event env fuel ns name) :
    Action.logConflictWarning ∈ process_event env fuel ns name ∧
    countDelete (process_event env fuel ns name) = 0 ∧
    (∀ alive rest, alive 0 = true →
      cli_loop fuel ns alive ((name, env) :: rest) =
        ⟨process_event env fuel ns name ++
           (cli_loop fuel ns (fun k => alive (k + 1)) rest).trace,
         (cli_loop fuel ns (fun k => alive (k + 1)) rest).remaining,
         (cli_loop fuel ns (fun k => alive (k + 1)) rest).exitCode⟩) := by
  have key : Action.logConflictWarning ∈ process_event env fuel ns name ∧
      countDelete (process_event env fuel ns name) = 0 := by
    cases hg : env.get name with
    | error u => simp [process_event, hg] at hconf
    | ok cm =>
      cases hd : _get_method_and_parameters cm with
      | error e => simp [process_event, hg, hd] at hconf
      | ok q =>
        obtain ⟨m, p, tm, tp⟩ := q
        cases hA : env.hasAttr tm with
        | false => simp [process_event, hg, hd, hA] at hconf
        | true =>
          cases htp : tp.objFields? with
          | none => simp [process_event, hg, hd, hA, htp] at hconf
          | some tkw =>
            cases hti : env.invoke_template tm tkw with
            | error e =>
              cases e with
              | conflict =>
                have ht : process_event env fuel ns name =
                    [.fetchCall name, .templateCall tm tkw,
                     .templateReturned (.error .conflict), .logConflictWarning] := by
                  simp [process_event, hg, hd, hA, htp, hti]
                rw [ht]
                exact ⟨by simp, by simp [countDelete]⟩
              | generic => simp [process_event, hg, hd, hA, htp, hti] at hconf
            | ok tmpl =>
              cases hw : (capacity_wait (env.can_run_workload tmpl ns) fuel 0).1 with
              | false => simp [process_event, hg, hd, hA, htp, hti, hw] at hconf
              | true =>
                cases hm : env.hasAttr m with
                | false => simp [process_event, hg, hd, hA, htp, hti, hw, hm] at hconf
                | true =>
                  cases hrk : runKwargs? p with
                  | none => simp [process_event, hg, hd, hA, htp, hti, hw, hm, hrk] at hconf
                  | some kw =>
                    cases hri : env.invoke_run m kw tmpl with
                    | error e =>
                      cases e with
                      | conflict =>
                        have ht : process_event env fuel ns name =
                            [.fetchCall name, .templateCall tm tkw,
                             .templateReturned (.ok tmpl)] ++
                            (capacity_wait (env.can_run_workload tmpl ns) fuel 0).2 ++
                            [.runCall m kw tmpl, .runReturned (.error .conflict),
                             .logConflictWarning] := by
                          simp [process_event, hg, hd, hA, htp, hti, hw, hm, hrk, hri]
                        rw [ht]
                        constructor
                        · simp
                        · simp only [countDelete, List.countP_append, List.countP_cons]
                          rw [countP_capacity_wait
                            (fun a => match a with | Action.deleteCall _ => true | _ => false)
                            (fun b => rfl)]
                          rfl
                      | generic =>
                        simp [process_event, hg, hd, hA, htp, hti, hw, hm, hrk, hri] at hconf
                    | ok r =>
                      cases hdel : env.delete name <;>
                        simp [process_event, hg, hd, hA, htp, hti, hw, hm, hrk, hri,
                          hdel] at hconf
  exact ⟨key.1, key.2, fun alive rest h => cli_loop_cons h fuel ns name env rest⟩



theorem conflict_warned_swallowed_no_delete_witness :
    Action.logConflictWarning ∈ process_event envConflict 5 "ns" "cm" ∧
    countDelete (process_event envConflict 5 "ns" "cm") = 0 ∧
    (∀ alive rest, alive 0 = true →
      cli_loop 5 "ns" alive (("cm", envConflict) :: rest) =
        ⟨process_event envConflict 5 "ns" "cm" ++
           (cli_loop 5 "ns" (fun k => alive (k + 1)) rest).trace,
         (cli_loop 5 "ns" (fun k => alive (k + 1)) rest).remaining,
         (cli_loop 5 "ns" (fun k => alive (k + 1)) rest).exitCode⟩) :=
  conflict_warned_swallowed_no_delete envConflict 5 "ns" "cm"
    (Or.inr (by
      rw [show process_event envConflict 5 "ns" "cm" =
        [.fetchCall "cm", .templateCall "get_template" [], .templateReturned (.ok tmplA),
         .pollCall false, .pollCall true,
         .runCall "scheduleJob" [("cpu", .num 2)] tmplA,
         .runReturned (.error .conflict), .logConflictWarning] from rfl]
      simp))

/-- C8: when the run invocation succeeded but the subsequent deletion call
fails, the deletion failure is logged and swallowed: the success log is still
emitted, the run method is invoked exactly once (never re-invoked), exactly
one deletion call is made, and the loop proceeds to the next event. -/
theorem delete_failure_logged_swallowed (env : Env) (fuel : Nat) (ns name : String)
    (hdel : env.delete name = .error ())
    (hrun : ∃ r, Action.runReturned (.ok r) ∈ process_event env fuel ns name) :
    Action.logDeleteError ∈ process_event env fuel ns name ∧
    (∃ s, Action.logSuccess s ∈ process_event env fuel ns name) ∧
    countRun (process_event env fuel ns name) = 1 ∧
    countDelete (process_event env fuel ns name) = 1 ∧
    (∀ alive rest, alive 0 = true →
      cli_loop fuel ns alive ((name, env) :: rest) =
        ⟨process_event env fuel ns name ++
           (cli_loop fuel ns (fun k => alive (k + 1)) rest).trace,
         (cli_loop fuel ns (fun k => alive (k + 1)) rest).remaining,
         (cli_loop fuel ns (fun k => alive (k + 1)) rest).exitCode⟩) := by
  obtain ⟨r0, hr⟩ := hrun
  have key : Action.logDeleteError ∈ process_event env fuel ns name ∧
      (∃ s, Action.logSuccess s ∈ process_event env fuel ns name) ∧
      countRun (process_event env fuel ns name) = 1 ∧
      countDelete (process_event env fuel ns name) = 1 := by
    cases hg : env.get name with
    | error u => simp [process_event, hg] at hr
    | ok cm =>
      cases hd : _get_method_and_parameters cm with
      | error e => simp [process_event, hg, hd] at hr
      | ok q =>
        obtain ⟨m, p, tm, tp⟩ := q
        cases hA : env.hasAttr tm with
        | false => simp [process_event, hg, hd, hA] at hr
        | true =>
          cases htp : tp.objFields? with
          | none => simp [process_event, hg, hd, hA, htp] at hr
          | some tkw =>
            cases hti : env.invoke_template tm tkw with
            | error e =>
              cases e <;> simp [process_event, hg, hd, hA, htp, hti] at hr
            | ok tmpl =>
              cases hw : (capacity_wait (env.can_run_workload tmpl ns) fuel 0).1 with
              | false => simp [process_event, hg, hd, hA, htp, hti, hw] at hr
              | true =>
                cases hm : env.hasAttr m with
                | false => simp [process_event, hg, hd, hA, htp, hti, hw, hm] at hr
                | true =>
                  cases hrk : runKwargs? p with
                  | none => simp [process_event, hg, hd, hA, htp, hti, hw, hm, hrk] at hr
                  | some kw =>
                    cases hri : env.invoke_run m kw tmpl with
                    | error e =>
                      cases e <;>
                        simp [process_event, hg, hd, hA, htp, hti, hw, hm, hrk, hri] at hr
                    | ok r =>
                      have ht : process_event env fuel ns name =
                          [.fetchCall name, .templateCall tm tkw,
                           .templateReturned (.ok tmpl)] ++
                          (capacity_wait (env.can_run_workload tmpl ns) fuel 0).2 ++
                          [.runCall m kw tmpl, .runReturned (.ok r),
                           .logSuccess tmpl.metadata_name, .deleteCall name,
                           .logDeleteError] := by
                        simp [process_event, hg, hd, hA, htp, hti, hw, hm, hrk, hri, hdel]
                      rw [ht]
                      refine ⟨by simp, ⟨tmpl.metadata_name, by simp⟩, ?_, ?_⟩
                      · simp only [countRun, List.countP_append, List.countP_cons]
                        rw [countP_capacity_wait
                          (fun a => match a with | Action.runCall _ _ _ => true | _ => false)
                          (fun b => rfl)]
                        rfl
                      · simp only [countDelete, List.countP_append, List.countP_cons]
                        rw [countP_capacity_wait
                          (fun a => match a with | Action.deleteCall _ => true | _ => false)
                          (fun b => rfl)]
                        rfl
  exact ⟨key.1, key.2.1, key.2.2.1, key.2.2.2,
    fun alive rest h => cli_loop_cons h fuel ns name env rest⟩

theorem delete_failure_logged_swallowed_witness :
    Action.logDeleteError ∈ process_event envDeleteFail 5 "ns" "cm" ∧
    (∃ s, Action.logSuccess s ∈ process_event envDeleteFail 5 "ns" "cm") ∧
    countRun (process_event envDeleteFail 5 "ns" "cm") = 1 ∧
    countDelete (process_event envDeleteFail 5 "ns" "cm") = 1 ∧
    (∀ alive rest, alive 0 = true →
      cli_loop 5 "ns" alive (("cm", envDeleteFail) :: rest) =
        ⟨process_event envDeleteFail 5 "ns" "cm" ++
           (cli_loop 5 "ns" (fun k => alive (k + 1)) rest).trace,
         (cli_loop 5 "ns" (fun k => alive (k + 1)) rest).remaining,
         (cli_loop 5 "ns" (fun k => alive (k + 1)) rest).exitCode⟩) :=
  delete_failure_logged_swallowed envDeleteFail 5 "ns" "cm" rfl
    ⟨7, by
      rw [show process_event envDeleteFail 5 "ns" "cm" =
        [.fetchCall "cm", .templateCall "get_template" [], .templateReturned (.ok tmplA),
         .pollCall false, .pollCall true,
         .runCall "scheduleJob" [("cpu", .num 2)] tmplA, .runReturned (.ok 7),
         .logSuccess "job-1", .deleteCall "cm", .logDeleteError] from rfl]
      simp⟩


end WorkloadOperator
